import Mathlib

/-!
Shivalik Service Hub backend (`server.js`): origin policy, bootstrap and routing.

A shallow embedding of the custom logic of `server.js`:

* JavaScript strings are sequences of UTF-16 code units (`JSString`), and an
  argument that may be `undefined` is an `Option JSString`;
* the regular-expression literal of `isAllowedOrigin` is a small syntax tree
  run by a backtracking matcher;
* callbacks and handlers return what they pass to their continuation, together
  with the lines they write to the console.
-/

namespace ShivalikBackend

/-! ## JavaScript strings -/

/-- A JavaScript string: its sequence of UTF-16 code units. -/
abbrev JSString := List Nat

/-- The UTF-16 code units of one Unicode character. -/
def utf16 (c : Char) : List Nat :=
  if c.toNat < 0x10000 then [c.toNat]
  else [0xD800 + (c.toNat - 0x10000) / 0x400, 0xDC00 + (c.toNat - 0x10000) % 0x400]

/-- The JavaScript string written as the literal `s` in the source. -/
def js (s : String) : JSString := s.toList.flatMap utf16

/-- JavaScript truthiness of a value that is `undefined` or a string:
only `undefined` and the empty string are falsy. -/
def truthy : Option JSString → Bool
  | none => false
  | some s => !s.isEmpty

/-- `Array.prototype.includes` on an array of strings, for an argument that is
`undefined` or a string. -/
def includes (xs : List JSString) : Option JSString → Bool
  | none => false
  | some s => xs.contains s

/-! ## Regular expressions (the fragment the source uses) -/

/-- The ECMAScript `LineTerminator` code units: LF, CR, LS, PS. -/
def isLineTerminator (c : Nat) : Bool :=
  c == 0x0A || c == 0x0D || c == 0x2028 || c == 0x2029

/-- A pattern atom consuming one code unit. -/
inductive Atom where
  /-- a literal (possibly escaped) character -/
  | chr (c : Nat)
  /-- `.` without the `s` flag: any code unit but a line terminator -/
  | dot
  deriving DecidableEq, Repr

/-- Whether an atom accepts a code unit. -/
def Atom.test : Atom → Nat → Bool
  | .chr c, x => x == c
  | .dot, x => !isLineTerminator x

/-- A term of a pattern: an atom, or an atom under the greedy `*`. -/
inductive Term where
  | one (a : Atom)
  | star (a : Atom)
  deriving DecidableEq, Repr

/-- A regular expression without flags: optional `^`, a sequence of terms,
optional `$`. -/
structure RegExp where
  anchorStart : Bool
  body : List Term
  anchorEnd : Bool
  deriving Repr

/-- Greedy repetition of `a` followed by the continuation `k`: take one more
code unit when `a` accepts it, otherwise (or on failure) hand over to `k`. -/
def matchStar (a : Atom) (k : List Nat → Bool) : List Nat → Bool
  | [] => k []
  | c :: t => (a.test c && matchStar a k t) || k (c :: t)

/-- Backtracking match of a sequence of terms at the head of `text`; at the
end of the pattern, `$` demands the end of the input. -/
def matchHere (anchorEnd : Bool) : List Term → List Nat → Bool
  | [], text => !anchorEnd || text.isEmpty
  | .one _ :: _, [] => false
  | .one a :: rest, c :: t => a.test c && matchHere anchorEnd rest t
  | .star a :: rest, text => matchStar a (matchHere anchorEnd rest) text

/-- Try a match at every start position of `text`, leftmost first. -/
def matchAnywhere (anchorEnd : Bool) (body : List Term) : List Nat → Bool
  | [] => matchHere anchorEnd body []
  | c :: t => matchHere anchorEnd body (c :: t) || matchAnywhere anchorEnd body t

/-- Whether `String.prototype.match` with a non-global regular expression
returns a match (a truthy array) rather than `null`. -/
def RegExp.matches (r : RegExp) (text : JSString) : Bool :=
  if r.anchorStart then matchHere r.anchorEnd r.body text
  else matchAnywhere r.anchorEnd r.body text

/-- The terms of a run of literal characters. -/
def lits (s : String) : List Term := (js s).map fun c => Term.one (Atom.chr c)

/-! ## `server.js`: the origin policy -/

/-- The array `allowedOrigins` (lines 15-19). -/
def allowedOrigins : List JSString :=
  [ js "http://localhost:5173",
    js "http://localhost:3000",
    js "https://shivaklik-frontend.vercel.app" ]

/-- The literal `/^https:\/\/shivaklik-frontend.*\.vercel\.app$/` (line 29):
`\/` and `\.` are the literal characters `/` and `.`. -/
def vercelRegExp : RegExp :=
  { anchorStart := true
    body := lits "https://shivaklik-frontend" ++ [Term.star Atom.dot] ++ lits ".vercel.app"
    anchorEnd := true }

/-- The function `isAllowedOrigin` (lines 22-34). -/
def isAllowedOrigin (origin : Option JSString) : Bool :=
  if includes allowedOrigins origin then true
  else if truthy origin &&
      (match origin with
       | none => false
       | some s => vercelRegExp.matches s) then true
  else false

/-! ## `server.js`: the two CORS origin callbacks -/

/-- A JavaScript value that is `undefined` or a string. -/
abbrev JSValue := Option JSString

/-- An observable effect of running a piece of the bootstrap code. -/
inductive Effect where
  /-- a call `console.log(...args)` -/
  | log (args : List JSValue)
  /-- a call `console.error(...args)` -/
  | error (args : List JSValue)
  /-- a call `process.exit(code)` -/
  | exit (code : Nat)
  deriving DecidableEq, Repr

/-- A JavaScript `Error` object, as far as the code reads it. -/
structure JSError where
  message : JSString
  deriving DecidableEq, Repr

/-- What an origin callback passes to `callback`. -/
inductive Decision where
  /-- the call `callback(null, true)` -/
  | allow
  /-- the call `callback(err)` with an error -/
  | reject (err : JSError)
  deriving DecidableEq, Repr

/-- One run of an origin callback: the console lines it wrote and the call it
made to `callback`. -/
structure CallbackRun where
  console : List Effect
  result : Decision
  deriving DecidableEq, Repr

/-- The `cors.origin` function given to Socket.IO (lines 39-49). -/
def ioCorsOrigin (origin : Option JSString) : CallbackRun :=
  if !truthy origin then { console := [], result := Decision.allow }
  else if isAllowedOrigin origin then { console := [], result := Decision.allow }
  else
    { console := [Effect.log [some (js "Blocked by CORS:"), origin]]
      result := Decision.reject { message := js "Not allowed by CORS" } }

/-- The `origin` function given to the `cors` middleware (lines 57-68). -/
def httpCorsOrigin (origin : Option JSString) : CallbackRun :=
  if !truthy origin then { console := [], result := Decision.allow }
  else if isAllowedOrigin origin then
    { console := [Effect.log [some (js "CORS allowed for:"), origin]]
      result := Decision.allow }
  else
    { console := [Effect.log [some (js "Blocked by CORS:"), origin]]
      result := Decision.reject { message := js "Not allowed by CORS" } }

/-! ## `server.js`: session configuration -/

/-- The `cookie` options of the session middleware (lines 90-95). -/
structure CookieOptions where
  secure : Bool
  httpOnly : Bool
  maxAge : Nat
  sameSite : JSString
  deriving DecidableEq, Repr

/-- The options of the session middleware that do not come from the
environment's secrets (lines 82-96); `touchAfter` belongs to the store. -/
structure SessionOptions where
  resave : Bool
  saveUninitialized : Bool
  touchAfter : Nat
  cookie : CookieOptions
  deriving DecidableEq, Repr

/-- The session configuration, given whether `process.env.NODE_ENV` is
`'production'`. -/
def sessionOptions (production : Bool) : SessionOptions :=
  { resave := false
    saveUninitialized := false
    touchAfter := 24 * 3600
    cookie :=
      { secure := production
        httpOnly := true
        maxAge := 1000 * 60 * 60 * 24 * 7
        sameSite := if production then js "none" else js "lax" } }

/-! ## `server.js`: database connection -/

/-- The function `connectDB` (lines 99-109), given how the promise of `mongoose.connect`
settles: the effects it performs, in order. -/
def connectDB (connect : Except JSError Unit) : List Effect :=
  match connect with
  | .ok _ => [Effect.log [some (js "MongoDB connected successfully")]]
  | .error error =>
    [ Effect.error [some (js "MongoDB connection failed:"), some error.message],
      Effect.exit 1 ]

/-! ## `server.js`: route mounting -/

/-- The route groups in mounting order (lines 123-129): mount path and the
module that serves it. -/
def routeMounts : List (JSString × JSString) :=
  [ (js "/api/auth", js "./routes/auth"),
    (js "/api/products", js "./routes/products"),
    (js "/api/admin", js "./routes/admin"),
    (js "/api/user-auth", js "./routes/userAuth"),
    (js "/api/cart", js "./routes/cart"),
    (js "/api/payment", js "./routes/payment"),
    (js "/api/stats", js "./routes/stats") ]

/-- The mount paths, in mounting order. -/
def mountPaths : List JSString := routeMounts.map Prod.fst

/-- Case folding of a code unit as routing applies it when it compares with
the ASCII characters of a mount path: `a`-`z` fold to `A`-`Z`, and no other
code unit folds to an ASCII one. -/
def foldCase (c : Nat) : Nat := if 97 ≤ c ∧ c ≤ 122 then c - 32 else c

/-- Equality of two code units under the `case sensitive routing` setting. -/
def sameChar (sensitive : Bool) (a b : Nat) : Bool :=
  if sensitive then a == b else foldCase a == foldCase b

/-- Whether a layer mounted with `app.use(mount, ...)` matches a request path:
the path begins with the mount path and goes on, if at all, with `/`
(the layer's pattern is `^mount\/?(?=\/|$)`, with flag `i` unless routing
is case sensitive). -/
def mountMatches (sensitive : Bool) : JSString → JSString → Bool
  | [], rest => rest.isEmpty || rest.head? == some 47
  | _ :: _, [] => false
  | m :: ms, c :: cs => sameChar sensitive m c && mountMatches sensitive ms cs

/-! ## `server.js`: the health check -/

/-- The operator `||` on a value that is `undefined` or a string and a
string default. -/
def orElse (v : Option JSString) (dflt : JSString) : JSString :=
  match v with
  | some s => if truthy (some s) then s else dflt
  | none => dflt

/-- A `GET /health` request, as far as the server reads it:
`req.headers.origin`. -/
structure HealthRequest where
  origin : Option JSString
  deriving DecidableEq, Repr

/-- The JSON body the health handler sends. -/
structure HealthBody where
  status : JSString
  timestamp : JSString
  origin : JSString
  deriving DecidableEq, Repr

/-- The handler of `GET /health` (lines 151-157); `now` is
`new Date().toISOString()`. -/
def healthHandler (now : JSString) (req : HealthRequest) : HealthBody :=
  { status := js "OK"
    timestamp := now
    origin := orElse req.origin (js "No origin header") }

/-- How the application answers a request. -/
inductive Response where
  /-- the handler ran and sent its JSON body -/
  | json (body : HealthBody)
  /-- a middleware called `next(err)`: no route handler runs and the
  framework's error handler answers -/
  | failed (err : JSError)
  deriving DecidableEq, Repr

/-- The answer to a `GET /health` request. The `cors` middleware (line 56)
is the first of the chain: it runs the origin function on
`req.headers.origin` and calls `next(err)` when that reports an error. The
body parser and the session middleware (lines 79-96) come next; `inner` is
the error one of them passes on, if any. No mounted route group matches
`/health`, so the handler of line 151 then answers. -/
def getHealth (now : JSString) (inner : Option JSError) (req : HealthRequest) : Response :=
  match (httpCorsOrigin req.origin).result with
  | .reject err => Response.failed err
  | .allow =>
    match inner with
    | some err => Response.failed err
    | none => Response.json (healthHandler now req)

/-! ## The matcher on the shapes the source uses -/

theorem matchHere_literals (e : Bool) (l : List Nat) (rest : List Term) (text : List Nat) :
    matchHere e (l.map (fun c => Term.one (Atom.chr c)) ++ rest) text = true ↔
      ∃ t, text = l ++ t ∧ matchHere e rest t = true := by
  induction l generalizing text with
  | nil => simp
  | cons a l ih =>
    cases text with
    | nil => simp [matchHere]
    | cons c t =>
      have step : matchHere e ((a :: l).map (fun c => Term.one (Atom.chr c)) ++ rest) (c :: t) =
          ((Atom.chr a).test c &&
            matchHere e (l.map (fun c => Term.one (Atom.chr c)) ++ rest) t) := rfl
      rw [step, Bool.and_eq_true, ih]
      simp only [Atom.test, beq_iff_eq, List.cons_append, List.cons.injEq]
      constructor
      · rintro ⟨rfl, u, rfl, hu⟩
        exact ⟨u, ⟨rfl, rfl⟩, hu⟩
      · rintro ⟨u, ⟨rfl, rfl⟩, hu⟩
        exact ⟨rfl, u, rfl, hu⟩

theorem matchStar_iff (a : Atom) (k : List Nat → Bool) (text : List Nat) :
    matchStar a k text = true ↔
      ∃ s t, text = s ++ t ∧ (∀ c ∈ s, a.test c = true) ∧ k t = true := by
  induction text with
  | nil =>
    simp only [matchStar]
    constructor
    · intro h
      exact ⟨[], [], rfl, by simp, h⟩
    · rintro ⟨s, t, hst, -, hk⟩
      have ht : t = [] := (List.append_eq_nil.mp hst.symm).2
      rwa [ht] at hk
  | cons c t ih =>
    simp only [matchStar, Bool.or_eq_true, Bool.and_eq_true, ih]
    constructor
    · rintro (⟨hc, s, u, rfl, hs, hk⟩ | hk)
      · refine ⟨c :: s, u, rfl, ?_, hk⟩
        intro x hx
        rcases List.mem_cons.mp hx with rfl | hx
        · exact hc
        · exact hs x hx
      · exact ⟨[], c :: t, rfl, by simp, hk⟩
    · rintro ⟨s, u, hst, hs, hk⟩
      cases s with
      | nil =>
        right
        rw [List.nil_append] at hst
        rwa [hst]
      | cons x s =>
        left
        simp only [List.cons_append, List.cons.injEq] at hst
        obtain ⟨rfl, rfl⟩ := hst
        exact ⟨hs c (List.mem_cons_self _ _), s, u, rfl,
          fun y hy => hs y (List.mem_cons_of_mem _ hy), hk⟩

/-- The regular expression of `isAllowedOrigin` matches exactly the strings
made of its two literal parts around a run of code units none of which is a
line terminator. -/
theorem vercelRegExp_matches_iff (origin : JSString) :
    vercelRegExp.matches origin = true ↔
      ∃ s, (∀ c ∈ s, isLineTerminator c = false) ∧
        origin = js "https://shivaklik-frontend" ++ s ++ js ".vercel.app" := by
  have hend : ∀ u : List Nat, matchHere true [] u = true ↔ u = [] := by
    intro u
    cases u <;> simp [matchHere]
  have hbody : vercelRegExp.matches origin =
      matchHere true ((js "https://shivaklik-frontend").map (fun c => Term.one (Atom.chr c)) ++
        (Term.star Atom.dot ::
          ((js ".vercel.app").map (fun c => Term.one (Atom.chr c)) ++ []))) origin := by
    simp [RegExp.matches, vercelRegExp, lits]
  rw [hbody, matchHere_literals]
  constructor
  · rintro ⟨t, rfl, ht⟩
    have ht2 : matchStar Atom.dot (matchHere true
        ((js ".vercel.app").map (fun c => Term.one (Atom.chr c)) ++ [])) t = true := ht
    rw [matchStar_iff] at ht2
    obtain ⟨s, u, rfl, hs, hu⟩ := ht2
    rw [matchHere_literals] at hu
    obtain ⟨v, rfl, hv⟩ := hu
    rw [hend] at hv
    subst hv
    refine ⟨s, ?_, by simp⟩
    intro c hc
    simpa [Atom.test] using hs c hc
  · rintro ⟨s, hs, rfl⟩
    refine ⟨s ++ js ".vercel.app", by simp, ?_⟩
    show matchStar Atom.dot (matchHere true
        ((js ".vercel.app").map (fun c => Term.one (Atom.chr c)) ++ [])) _ = true
    rw [matchStar_iff]
    refine ⟨s, js ".vercel.app", rfl, ?_, ?_⟩
    · intro c hc
      simpa [Atom.test] using hs c hc
    · rw [matchHere_literals]
      exact ⟨[], by simp, rfl⟩

/-- Membership in `allowedOrigins`, as `isAllowedOrigin` tests it. -/
theorem includes_allowedOrigins (origin : JSString) :
    includes allowedOrigins (some origin) = true ↔ origin ∈ allowedOrigins := by
  simp [includes]

/-- On a string, `isAllowedOrigin` is the list test or the pattern test. -/
theorem isAllowedOrigin_some (origin : JSString) :
    isAllowedOrigin (some origin) = true ↔
      origin ∈ allowedOrigins ∨ vercelRegExp.matches origin = true := by
  have hempty : vercelRegExp.matches [] = false := by decide
  unfold isAllowedOrigin
  by_cases hin : includes allowedOrigins (some origin) = true
  · simp [hin, (includes_allowedOrigins origin).mp hin]
  · have hnot : origin ∉ allowedOrigins := fun h => hin ((includes_allowedOrigins origin).mpr h)
    cases origin with
    | nil => simp [hin, hnot, truthy, hempty]
    | cons c t => simp [hin, hnot, truthy]

/-- No entry of `allowedOrigins` is a proper prefix of another entry. -/
theorem allowedOrigins_prefix_free :
    ∀ e ∈ allowedOrigins, ∀ f ∈ allowedOrigins, e <+: f → e = f := by
  decide

/-! ## The claims -/

/-- C1: for every origin value (absent, empty or any string) the origin
function of the HTTP CORS middleware and the one of the Socket.IO server make
the same call to `callback`, which is `callback(null, true)` or
`callback(new Error('Not allowed by CORS'))`; they differ in logging only. -/
theorem cors_callbacks_agree (origin : Option JSString) :
    (httpCorsOrigin origin).result = (ioCorsOrigin origin).result ∧
      ((httpCorsOrigin origin).result = Decision.allow ∨
        (httpCorsOrigin origin).result =
          Decision.reject { message := js "Not allowed by CORS" }) := by
  unfold httpCorsOrigin ioCorsOrigin
  by_cases h1 : truthy origin = true <;> by_cases h2 : isAllowedOrigin origin = true <;>
    simp [h1, h2]

/-- C2: each of the two origin functions accepts an origin exactly when it is
absent, empty, or allowed by `isAllowedOrigin`; on a non-empty origin that
`isAllowedOrigin` refuses it calls back with the error
'Not allowed by CORS', hence not with `true`. -/
theorem cors_origin_decision (origin : Option JSString) :
    ((httpCorsOrigin origin).result = Decision.allow ↔
        (origin = none ∨ origin = some [] ∨ isAllowedOrigin origin = true)) ∧
      ((ioCorsOrigin origin).result = Decision.allow ↔
        (origin = none ∨ origin = some [] ∨ isAllowedOrigin origin = true)) ∧
      (∀ s : JSString, origin = some s → s ≠ [] → isAllowedOrigin origin = false →
        (httpCorsOrigin origin).result =
            Decision.reject { message := js "Not allowed by CORS" } ∧
          (ioCorsOrigin origin).result =
            Decision.reject { message := js "Not allowed by CORS" } ∧
          (httpCorsOrigin origin).result ≠ Decision.allow ∧
          (ioCorsOrigin origin).result ≠ Decision.allow) := by
  unfold httpCorsOrigin ioCorsOrigin
  rcases origin with _ | _ | ⟨c, t⟩
  · simp [truthy]
  · simp [truthy]
  · by_cases h2 : isAllowedOrigin (some (c :: t)) = true <;> simp [truthy, h2]

/-- The rejection part of C2 at the non-empty origin 'http://evil.example',
which `isAllowedOrigin` refuses. -/
theorem cors_origin_decision_witness :
    js "http://evil.example" ≠ [] ∧
      isAllowedOrigin (some (js "http://evil.example")) = false ∧
      (httpCorsOrigin (some (js "http://evil.example"))).result =
        Decision.reject { message := js "Not allowed by CORS" } ∧
      (ioCorsOrigin (some (js "http://evil.example"))).result =
        Decision.reject { message := js "Not allowed by CORS" } :=
  ⟨by decide, by decide,
    ((cors_origin_decision (some (js "http://evil.example"))).2.2
      (js "http://evil.example") rfl (by decide) (by decide)).1,
    ((cors_origin_decision (some (js "http://evil.example"))).2.2
      (js "http://evil.example") rfl (by decide) (by decide)).2.1⟩

/-- C3, as the spec states it, fails: a line feed between the two literal
parts gives a string of the advertised shape that `isAllowedOrigin` refuses. -/
theorem isAllowedOrigin_glob_counterexample :
    ¬ (isAllowedOrigin (some (js "https://shivaklik-frontend\n.vercel.app")) = true ↔
        (js "https://shivaklik-frontend\n.vercel.app" ∈ allowedOrigins ∨
          ∃ s : JSString, js "https://shivaklik-frontend\n.vercel.app" =
            js "https://shivaklik-frontend" ++ s ++ js ".vercel.app")) := by
  intro h
  have hfalse : isAllowedOrigin (some (js "https://shivaklik-frontend\n.vercel.app")) = false := by
    decide
  have htrue := h.mpr (Or.inr ⟨js "\n", by decide⟩)
  rw [hfalse] at htrue
  exact Bool.false_ne_true htrue

/-- C3, amended: a string is allowed exactly when it is one of the three
entries of `allowedOrigins` or is 'https://shivaklik-frontend', then any run
of code units none of which is a line terminator (LF, CR, U+2028, U+2029),
then '.vercel.app'. -/
theorem isAllowedOrigin_iff (origin : JSString) :
    isAllowedOrigin (some origin) = true ↔
      (origin ∈ allowedOrigins ∨
        ∃ s : JSString, (∀ c ∈ s, isLineTerminator c = false) ∧
          origin = js "https://shivaklik-frontend" ++ s ++ js ".vercel.app") := by
  rw [isAllowedOrigin_some, vercelRegExp_matches_iff]

/-- C4: the entries of `allowedOrigins` are exactly 'http://localhost:5173',
'http://localhost:3000' and 'https://shivaklik-frontend.vercel.app', each of
the three is allowed by `isAllowedOrigin`, and the list match is exact: an
entry followed by a non-empty string is no entry, so it is allowed only if the
regular expression matches it; 'http://localhost:5173/' and
'http://localhost:30000' are refused. -/
theorem allowedOrigins_exact :
    allowedOrigins = [js "http://localhost:5173", js "http://localhost:3000",
        js "https://shivaklik-frontend.vercel.app"] ∧
      isAllowedOrigin (some (js "http://localhost:5173")) = true ∧
      isAllowedOrigin (some (js "http://localhost:3000")) = true ∧
      isAllowedOrigin (some (js "https://shivaklik-frontend.vercel.app")) = true ∧
      (∀ e ∈ allowedOrigins, isAllowedOrigin (some e) = true) ∧
      (∀ e ∈ allowedOrigins, ∀ t : JSString, t ≠ [] →
        e ++ t ∉ allowedOrigins ∧
          (isAllowedOrigin (some (e ++ t)) = true → vercelRegExp.matches (e ++ t) = true)) ∧
      isAllowedOrigin (some (js "http://localhost:5173/")) = false ∧
      isAllowedOrigin (some (js "http://localhost:30000")) = false := by
  refine ⟨rfl, by decide, by decide, by decide, ?_, ?_, by decide, by decide⟩
  · intro e he
    exact (isAllowedOrigin_some e).mpr (Or.inl he)
  · intro e he t ht
    have hnot : e ++ t ∉ allowedOrigins := by
      intro hmem
      have heq := allowedOrigins_prefix_free e he (e ++ t) hmem (List.prefix_append e t)
      exact ht (List.append_right_eq_self.mp heq.symm)
    refine ⟨hnot, fun h => ?_⟩
    rcases (isAllowedOrigin_some (e ++ t)).mp h with h | h
    · exact absurd h hnot
    · exact h

/-- The exactness part of C4 at the third entry followed by 'x.vercel.app':
the longer string is no entry and is allowed through the regular expression. -/
theorem allowedOrigins_exact_witness :
    js "x.vercel.app" ≠ [] ∧
      isAllowedOrigin (some (js "https://shivaklik-frontend.vercel.app" ++ js "x.vercel.app")) = true ∧
      vercelRegExp.matches (js "https://shivaklik-frontend.vercel.app" ++ js "x.vercel.app") = true :=
  ⟨by decide, by decide,
    (allowedOrigins_exact.2.2.2.2.2.1 (js "https://shivaklik-frontend.vercel.app") (by decide)
      (js "x.vercel.app") (by decide)).2 (by decide)⟩

/-- C8, as the spec states it, fails: an allowed origin that is no entry of
`allowedOrigins` may carry a '/' after 'https://', so that what follows the
scheme is not a single host name. -/
theorem vercel_host_counterexample :
    isAllowedOrigin (some (js "https://shivaklik-frontend.evil.example/.vercel.app")) = true ∧
      js "https://shivaklik-frontend.evil.example/.vercel.app" ∉ allowedOrigins ∧
      ¬ (js "https://shivaklik-frontend" <+:
            js "https://shivaklik-frontend.evil.example/.vercel.app" ∧
          js ".vercel.app" <:+ js "https://shivaklik-frontend.evil.example/.vercel.app" ∧
          ∀ c ∈ (js "https://shivaklik-frontend.evil.example/.vercel.app").drop
              (js "https://").length,
            c ∉ js "/?#@:") := by
  refine ⟨by decide, by decide, ?_⟩
  rintro ⟨-, -, h⟩
  exact h 47 (by decide) (by decide)

/-- C8, amended: an allowed origin that is no entry of `allowedOrigins` starts
with 'https://shivaklik-frontend', ends with '.vercel.app' without the two
overlapping, and has no line terminator in between. -/
theorem vercel_shape (origin : JSString)
    (hallowed : isAllowedOrigin (some origin) = true) (hentry : origin ∉ allowedOrigins) :
    js "https://shivaklik-frontend" <+: origin ∧ js ".vercel.app" <:+ origin ∧
      (js "https://shivaklik-frontend").length + (js ".vercel.app").length ≤ origin.length ∧
      ∀ c ∈ (origin.drop (js "https://shivaklik-frontend").length).take
          (origin.length - (js "https://shivaklik-frontend").length - (js ".vercel.app").length),
        isLineTerminator c = false := by
  rcases (isAllowedOrigin_some origin).mp hallowed with h | h
  · exact absurd h hentry
  obtain ⟨s, hs, rfl⟩ := (vercelRegExp_matches_iff origin).mp h
  · refine ⟨⟨s ++ js ".vercel.app", by simp⟩, ⟨js "https://shivaklik-frontend" ++ s, rfl⟩,
      by simp, ?_⟩
    intro c hc
    apply hs c
    have hdrop : (js "https://shivaklik-frontend" ++ s ++ js ".vercel.app").drop
        (js "https://shivaklik-frontend").length = s ++ js ".vercel.app" := by
      rw [List.append_assoc, List.drop_left]
    rw [hdrop] at hc
    have hlen : (js "https://shivaklik-frontend" ++ s ++ js ".vercel.app").length -
        (js "https://shivaklik-frontend").length - (js ".vercel.app").length = s.length := by
      simp only [List.length_append]
      omega
    rw [hlen, List.take_left] at hc
    exact hc

/-- The amended C8 at a preview deployment's origin, which is allowed and is
no entry of `allowedOrigins`. -/
theorem vercel_shape_witness :
    isAllowedOrigin (some (js "https://shivaklik-frontend-git-main.vercel.app")) = true ∧
      js "https://shivaklik-frontend-git-main.vercel.app" ∉ allowedOrigins ∧
      js "https://shivaklik-frontend" <+: js "https://shivaklik-frontend-git-main.vercel.app" ∧
      js ".vercel.app" <:+ js "https://shivaklik-frontend-git-main.vercel.app" ∧
      (js "https://shivaklik-frontend").length + (js ".vercel.app").length ≤
        (js "https://shivaklik-frontend-git-main.vercel.app").length ∧
      ∀ c ∈ ((js "https://shivaklik-frontend-git-main.vercel.app").drop
            (js "https://shivaklik-frontend").length).take
          ((js "https://shivaklik-frontend-git-main.vercel.app").length -
            (js "https://shivaklik-frontend").length - (js ".vercel.app").length),
        isLineTerminator c = false :=
  ⟨by decide, by decide,
    vercel_shape (js "https://shivaklik-frontend-git-main.vercel.app") (by decide) (by decide)⟩

/-! ## Routing lemmas -/

theorem sameChar_symm (sensitive : Bool) (a b : Nat) (h : sameChar sensitive a b = true) :
    sameChar sensitive b a = true := by
  cases sensitive
  · simp only [sameChar, Bool.false_eq_true, if_false, beq_iff_eq] at h ⊢
    exact h.symm
  · simp only [sameChar, if_true, beq_iff_eq] at h ⊢
    exact h.symm

theorem sameChar_trans (sensitive : Bool) (a b c : Nat) (hab : sameChar sensitive a b = true)
    (hbc : sameChar sensitive b c = true) : sameChar sensitive a c = true := by
  cases sensitive <;> simp_all [sameChar]

/-- Only `/` is the same character as `/`, whatever the case setting. -/
theorem sameChar_slash (sensitive : Bool) (a : Nat) (h : sameChar sensitive a 47 = true) :
    a = 47 := by
  cases sensitive
  · have hslash : foldCase 47 = 47 := by decide
    simp only [sameChar, Bool.false_eq_true, if_false, beq_iff_eq, hslash] at h
    unfold foldCase at h
    split at h <;> omega
  · simpa [sameChar] using h

/-- Two mount paths that match one request path: the shorter one matches the
longer one. -/
theorem mountMatches_of_common_path (sensitive : Bool) (p q path : JSString)
    (hp : mountMatches sensitive p path = true) (hq : mountMatches sensitive q path = true)
    (hlen : p.length ≤ q.length) : mountMatches sensitive p q = true := by
  induction p generalizing q path with
  | nil =>
    cases q with
    | nil => simp [mountMatches]
    | cons m ms =>
      cases path with
      | nil => simp [mountMatches] at hq
      | cons c cs =>
        simp only [mountMatches, Bool.and_eq_true] at hq
        simp only [mountMatches, List.isEmpty_cons, Bool.false_or, List.head?_cons,
          beq_iff_eq, Option.some.injEq] at hp
        subst hp
        simp [mountMatches, sameChar_slash sensitive m hq.1]
  | cons a p ih =>
    cases path with
    | nil => simp [mountMatches] at hp
    | cons c cs =>
      cases q with
      | nil => simp at hlen
      | cons m ms =>
        simp only [mountMatches, Bool.and_eq_true] at hp hq ⊢
        exact ⟨sameChar_trans sensitive a c m hp.1 (sameChar_symm sensitive m c hq.1),
          ih ms cs hp.2 hq.2 (by simpa using hlen)⟩

/-- Among the mount paths of the server, one matches another only when they
are the same path. -/
theorem mountPaths_segment_free (sensitive : Bool) :
    ∀ p ∈ mountPaths, ∀ q ∈ mountPaths, mountMatches sensitive p q = true → p = q := by
  cases sensitive <;> decide

/-- No mounted route group matches the path of the health check. -/
theorem health_not_mounted (sensitive : Bool) :
    ∀ p ∈ mountPaths, mountMatches sensitive p (js "/health") = false := by
  cases sensitive <;> decide

/-! ## The claims, continued -/

/-- C5: when `mongoose.connect` rejects, `connectDB` logs the error's message
and then exits the process with code 1; when it resolves, `connectDB` never
calls `process.exit`; so it exits with code 1 exactly when the connection
result is an error. -/
theorem connectDB_exit :
    (∀ error : JSError, connectDB (Except.error error) =
        [ Effect.error [some (js "MongoDB connection failed:"), some error.message],
          Effect.exit 1 ]) ∧
      (∀ (u : Unit) (code : Nat), Effect.exit code ∉ connectDB (Except.ok u)) ∧
      (∀ connect : Except JSError Unit,
        Effect.exit 1 ∈ connectDB connect ↔ ∃ error, connect = Except.error error) := by
  refine ⟨fun _ => rfl, ?_, ?_⟩
  · intro u code
    simp [connectDB]
  · intro connect
    cases connect with
    | error e => simp [connectDB]
    | ok u => simp [connectDB]

/-- C6: the server mounts exactly seven route groups, under /api/auth,
/api/products, /api/admin, /api/user-auth, /api/cart, /api/payment and
/api/stats; these mount paths are pairwise distinct, none matches another as
a request path (none is a path-segment prefix of another), and so every
request path is matched by at most one of them, with or without case
sensitive routing. -/
theorem route_mounts_disjoint :
    routeMounts.length = 7 ∧
      mountPaths = [js "/api/auth", js "/api/products", js "/api/admin", js "/api/user-auth",
        js "/api/cart", js "/api/payment", js "/api/stats"] ∧
      mountPaths.Nodup ∧
      (∀ sensitive : Bool, ∀ p ∈ mountPaths, ∀ q ∈ mountPaths, p ≠ q →
        mountMatches sensitive p q = false) ∧
      (∀ (sensitive : Bool) (path : JSString), ∀ p ∈ mountPaths, ∀ q ∈ mountPaths,
        mountMatches sensitive p path = true → mountMatches sensitive q path = true →
          p = q) := by
  refine ⟨rfl, rfl, by decide, ?_, ?_⟩
  · intro sensitive p hp q hq hne
    cases h : mountMatches sensitive p q
    · rfl
    · exact absurd (mountPaths_segment_free sensitive p hp q hq h) hne
  · intro sensitive path p hp q hq hmp hmq
    rcases Nat.le_total p.length q.length with hle | hle
    · exact mountPaths_segment_free sensitive p hp q hq
        (mountMatches_of_common_path sensitive p q path hmp hmq hle)
    · exact (mountPaths_segment_free sensitive q hq p hp
        (mountMatches_of_common_path sensitive q p path hmq hmp hle)).symm

/-- The uniqueness part of C6 at the request path '/api/cart/items': it is
matched by '/api/cart', and a mount path that matches it is '/api/cart'. -/
theorem route_mounts_disjoint_witness :
    mountMatches false (js "/api/cart") (js "/API/cart/items") = true ∧
      ∀ q ∈ mountPaths, mountMatches false q (js "/API/cart/items") = true →
        js "/api/cart" = q :=
  ⟨by decide, fun q hq h =>
    route_mounts_disjoint.2.2.2.2 false (js "/API/cart/items") (js "/api/cart") (by decide)
      q hq (by decide) h⟩

/-- C7: the session cookie's `maxAge` is one week in milliseconds,
1000 * 60 * 60 * 24 * 7 = 604800000 = 7 * 86400 * 1000, and the store's
`touchAfter`, 24 * 3600 = 86400 seconds (one day), is strictly below the
cookie's lifetime in seconds; the products are exact in double precision. -/
theorem session_lifetimes (production : Bool) :
    (sessionOptions production).cookie.maxAge = 604800000 ∧
      (sessionOptions production).cookie.maxAge = 7 * 86400 * 1000 ∧
      (sessionOptions production).touchAfter = 86400 ∧
      (sessionOptions production).touchAfter < (sessionOptions production).cookie.maxAge / 1000 ∧
      (sessionOptions production).cookie.maxAge < 2 ^ 53 := by
  have hmax : (sessionOptions production).cookie.maxAge = 1000 * 60 * 60 * 24 * 7 := rfl
  have htouch : (sessionOptions production).touchAfter = 24 * 3600 := rfl
  rw [hmax, htouch]
  norm_num

/-- C9, as the spec states it, fails: a `GET /health` request whose Origin
header is a non-empty origin that `isAllowedOrigin` refuses is answered by
the CORS error, not by the health body. -/
theorem health_counterexample :
    isAllowedOrigin (some (js "http://evil.example")) = false ∧
      ∀ (now : JSString) (inner : Option JSError),
        getHealth now inner { origin := some (js "http://evil.example") } =
            Response.failed { message := js "Not allowed by CORS" } ∧
          ¬ ∃ body : HealthBody,
            getHealth now inner { origin := some (js "http://evil.example") } =
              Response.json body ∧ body.status = js "OK" := by
  have hno : isAllowedOrigin (some (js "http://evil.example")) = false := by decide
  have htruthy : truthy (some (js "http://evil.example")) = true := by decide
  have hres : (httpCorsOrigin (some (js "http://evil.example"))).result =
      Decision.reject { message := js "Not allowed by CORS" } := by
    simp [httpCorsOrigin, hno, htruthy]
  refine ⟨hno, fun now inner => ?_⟩
  have hget : getHealth now inner { origin := some (js "http://evil.example") } =
      Response.failed { message := js "Not allowed by CORS" } := by
    simp only [getHealth, hres]
  refine ⟨hget, ?_⟩
  rintro ⟨body, hbody, -⟩
  rw [hget] at hbody
  exact Response.noConfusion hbody

/-- C9, amended: the health handler always builds a body with status 'OK'
whose origin field is the Origin header when that is present and non-empty
and 'No origin header' otherwise; a `GET /health` request is answered with
that body exactly when its Origin header is absent, empty or allowed by
`isAllowedOrigin` and no middleware before the handler fails, and is
answered with the error 'Not allowed by CORS' when its Origin header is
non-empty and refused. -/
theorem health_response (now : JSString) (inner : Option JSError) (req : HealthRequest) :
    (healthHandler now req).status = js "OK" ∧
      (∀ s : JSString, req.origin = some s → s ≠ [] → (healthHandler now req).origin = s) ∧
      ((req.origin = none ∨ req.origin = some []) →
        (healthHandler now req).origin = js "No origin header") ∧
      (getHealth now inner req = Response.json (healthHandler now req) ↔
        (inner = none ∧
          (req.origin = none ∨ req.origin = some [] ∨ isAllowedOrigin req.origin = true))) ∧
      (∀ s : JSString, req.origin = some s → s ≠ [] → isAllowedOrigin req.origin = false →
        getHealth now inner req = Response.failed { message := js "Not allowed by CORS" }) := by
  obtain ⟨origin⟩ := req
  refine ⟨rfl, ?_, ?_, ?_, ?_⟩
  · rintro s ⟨rfl⟩ hs
    cases s with
    | nil => exact absurd rfl hs
    | cons c t => simp [healthHandler, orElse, truthy]
  · rintro (h | h) <;> simp only at h <;> subst h <;> simp [healthHandler, orElse, truthy]
  · simp only [getHealth, httpCorsOrigin]
    rcases origin with _ | _ | ⟨c, t⟩
    · cases inner <;> simp [truthy]
    · cases inner <;> simp [truthy]
    · by_cases h2 : isAllowedOrigin (some (c :: t)) = true <;> cases inner <;>
        simp [truthy, h2]
  · rintro s ⟨rfl⟩ hs hno
    cases s with
    | nil => exact absurd rfl hs
    | cons c t =>
      simp only at hno
      simp [getHealth, httpCorsOrigin, truthy, hno]

/-- The amended C9 at a request from the local development origin, with no
middleware failure: the answer is the health body, which echoes the origin. -/
theorem health_response_witness :
    getHealth (js "2025-01-01T00:00:00.000Z") none { origin := some (js "http://localhost:5173") } =
        Response.json
          { status := js "OK"
            timestamp := js "2025-01-01T00:00:00.000Z"
            origin := js "http://localhost:5173" } ∧
      getHealth (js "2025-01-01T00:00:00.000Z") none { origin := none } =
        Response.json
          { status := js "OK"
            timestamp := js "2025-01-01T00:00:00.000Z"
            origin := js "No origin header" } :=
  ⟨((health_response (js "2025-01-01T00:00:00.000Z") none
      { origin := some (js "http://localhost:5173") }).2.2.2.1.mpr
        ⟨rfl, Or.inr (Or.inr (by decide))⟩).trans
      (congrArg Response.json (by
        have h := (health_response (js "2025-01-01T00:00:00.000Z") none
          { origin := some (js "http://localhost:5173") }).2.1 (js "http://localhost:5173") rfl
            (by decide)
        simp only [healthHandler] at h ⊢
        rw [h])),
    (health_response (js "2025-01-01T00:00:00.000Z") none { origin := none }).2.2.2.1.mpr
      ⟨rfl, Or.inl rfl⟩⟩

end ShivalikBackend
